import Mathlib

/-!
Shallow embedding of the outbound reminder-call lifecycle of
`hume_webhook.py`: the reminder record data model, the periodic dispatcher
`process_pending_outbound_calls`, the Twilio status callback handler,
the chat-ended completion path of the Hume webhook handler, the
reschedule tool handler's reminder updates, and the reminder-context
record selection.

Modelling conventions:
- instants (UTC epoch) are `Int` seconds; ISO-8601 strings in the store
  are modelled by the instant they denote;
- an IANA timezone is a `String`; its UTC offset (in seconds, at the
  current instant, DST included) is supplied by an environment function;
- database rows live in a `List ReminderRecord`; keyed updates
  (`.eq("appointment_id", ...)`) map over all rows with that id
  (the deployment keeps at most one row per appointment id);
- Python exceptions caught by a surrounding `try` are modelled by a
  boolean oracle that, when set, makes the guarded block take its
  `except` path before any database write (the realistic raise points —
  timestamp/zone parsing, HTTP form parsing — precede the writes);
- a fallible external call is an oracle returning its outcome
  (for Twilio call placement: `Option String`, the call SID on success).
-/

namespace HumeWebhook

/-- The `status` column of an `outbound_calls` row. -/
inductive ReminderStatus where
  | pending
  | calling
  | in_progress
  | completed
  | failed
  | cancelled
deriving DecidableEq, Repr

/-- Whether a status is terminal (`completed`, `failed`, `cancelled`). -/
def ReminderStatus.isTerminal : ReminderStatus → Bool
  | .completed => true
  | .failed => true
  | .cancelled => true
  | _ => false

/-- One row of the `outbound_calls` table. -/
structure ReminderRecord where
  appointment_id : String
  patient_id : String
  phone_number : String
  appointment_time : Int
  timezone : Option String
  provider_id : Option String := none
  status : ReminderStatus
  call_sid : Option String := none
  call_attempts : Nat := 0
  last_attempt_at : Option Int := none
  updated_at : Option Int := none
deriving DecidableEq, Repr

/-- The row inserted by the booking flow (`book_appointment` handler):
`status` is `pending` and the columns not named in the insert
(`call_sid`, `call_attempts`, `last_attempt_at`) take their defaults. -/
def bookingInsertRecord (patient_id appointment_id phone_number : String)
    (appointment_time : Int) (tz : String) (provider_id : Option String) :
    ReminderRecord :=
  { appointment_id := appointment_id
    patient_id := patient_id
    phone_number := phone_number
    appointment_time := appointment_time
    timezone := some tz
    provider_id := provider_id
    status := .pending }

/-- Apply `f` to every row whose `appointment_id` equals `aid`
(a Supabase `update(...).eq("appointment_id", aid)`). -/
def updateByAppointmentId (aid : String) (f : ReminderRecord → ReminderRecord)
    (db : List ReminderRecord) : List ReminderRecord :=
  db.map fun r => if r.appointment_id = aid then f r else r

/-- Environment of one dispatcher invocation: the current instant,
the UTC offset of each zone name at that instant, and the
`OUTBOUND_TEST_MODE` flag. -/
structure DispatchEnv where
  nowUtc : Int
  tzOffset : String → Int
  testMode : Bool

/-- `call_record.get('timezone', 'America/New_York')`. -/
def tzName (r : ReminderRecord) : String :=
  r.timezone.getD "America/New_York"

/-- `(appt_local - now_local).total_seconds() / 3600`: the difference of two
timezone-aware datetimes is the difference of instants, so the result does
not depend on the zone used to display them. -/
def hoursUntilAppt (env : DispatchEnv) (r : ReminderRecord) : Rat :=
  ((r.appointment_time - env.nowUtc : Int) : Rat) / 3600

/-- `datetime.now(tz).hour`: the wall-clock hour in the record's zone. -/
def localHour (env : DispatchEnv) (r : ReminderRecord) : Int :=
  ((env.nowUtc + env.tzOffset (tzName r)).fdiv 3600).emod 24

/-- What became of one pending row inside the dispatcher loop. -/
inductive RecordOutcome where
  | notDue
  | skippedHours
  | placed
  | placeFailed
  | errored
deriving DecidableEq, Repr

/-- The body of the dispatcher loop for one pending row
(`process_pending_outbound_calls`, per-record `try` block):
parse, test-mode / reminder-window / calling-hours checks, call placement,
and the row update keyed by the record's appointment id.
`placeResult r` is `make_outbound_call`'s outcome (`some sid` on success);
`raisesOn r` is the per-record exception oracle. -/
def processRecord (env : DispatchEnv) (hoursBefore : Int)
    (callingHours : Int × Int) (placeResult : ReminderRecord → Option String)
    (raisesOn : ReminderRecord → Bool) (r : ReminderRecord) :
    RecordOutcome × ReminderRecord :=
  if raisesOn r then
    (.errored, r)
  else if ¬env.testMode ∧
      (hoursUntilAppt env r > (hoursBefore : Rat) ∨ hoursUntilAppt env r < 0) then
    (.notDue, r)
  else if ¬env.testMode ∧
      (localHour env r < callingHours.1 ∨ localHour env r ≥ callingHours.2) then
    (.skippedHours, r)
  else
    match placeResult r with
    | some sid =>
        (.placed,
          { r with
              status := .calling
              call_sid := some sid
              call_attempts := r.call_attempts + 1
              last_attempt_at := some env.nowUtc
              updated_at := some env.nowUtc })
    | none =>
        (.placeFailed,
          { r with
              status := if r.call_attempts ≥ 2 then .failed else .pending
              call_attempts := r.call_attempts + 1
              last_attempt_at := some env.nowUtc
              updated_at := some env.nowUtc })

/-- The dict returned by `process_pending_outbound_calls` (success path;
when a client is missing the Python returns an error dict without the
counter keys, modelled here as `success := false` with zero counters). -/
structure DispatchResult where
  success : Bool
  processed : Nat
  skipped : Nat
  failed : Nat
  total_pending : Nat
deriving DecidableEq, Repr

/-- `process_pending_outbound_calls(hours_before, calling_hours)`:
select the rows with `status == 'pending'`, run the loop body on each
(per-row errors isolated by the inner `try`), and return the counters.
`failed` counts both unsuccessful placements and raised rows; rows skipped
by the reminder-window check touch no counter. The second component is the
database after the keyed writes. -/
def process_pending_outbound_calls (env : DispatchEnv)
    (supabaseOk twilioOk : Bool) (hoursBefore : Int) (callingHours : Int × Int)
    (placeResult : ReminderRecord → Option String)
    (raisesOn : ReminderRecord → Bool) (db : List ReminderRecord) :
    DispatchResult × List ReminderRecord :=
  if ¬supabaseOk ∨ ¬twilioOk then
    ({ success := false, processed := 0, skipped := 0, failed := 0,
       total_pending := 0 }, db)
  else
    let pending := db.filter fun r => r.status = .pending
    let outs := pending.map
      (processRecord env hoursBefore callingHours placeResult raisesOn)
    ({ success := true
       processed := (outs.filter fun p => p.1 = .placed).length
       skipped := (outs.filter fun p => p.1 = .skippedHours).length
       failed := (outs.filter fun p => p.1 = .placeFailed ∨ p.1 = .errored).length
       total_pending := pending.length },
     db.map fun r =>
       if r.status = .pending then
         (processRecord env hoursBefore callingHours placeResult raisesOn r).2
       else r)

/-- The dispatcher loop reaches `make_outbound_call` for `r`: the row is in
the `status == 'pending'` selection and the loop body falls through to the
placement call (outcome `placed` or `placeFailed`). -/
def attemptsCall (env : DispatchEnv) (hoursBefore : Int)
    (callingHours : Int × Int) (placeResult : ReminderRecord → Option String)
    (raisesOn : ReminderRecord → Bool) (r : ReminderRecord) : Prop :=
  r.status = .pending ∧
    ((processRecord env hoursBefore callingHours placeResult raisesOn r).1
        = .placed ∨
     (processRecord env hoursBefore callingHours placeResult raisesOn r).1
        = .placeFailed)

instance (env : DispatchEnv) (hoursBefore : Int) (callingHours : Int × Int)
    (placeResult : ReminderRecord → Option String)
    (raisesOn : ReminderRecord → Bool) (r : ReminderRecord) :
    Decidable (attemptsCall env hoursBefore callingHours placeResult raisesOn r) := by
  unfold attemptsCall
  infer_instance

/-- What Twilio posts to `/twilio-status`: the `appointment_id` query
parameter and the `CallStatus` / `CallSid` form fields (each may be
absent). -/
structure TwilioCallbackRequest where
  appointment_id : Option String
  callStatus : Option String
  callSid : Option String := none
deriving DecidableEq, Repr

/-- The HTTP reply of a callback handler: the status code and whether the
JSON body carries `status: ok` (the `except` branch replies
`status: error`, still with code 200). -/
structure HttpAck where
  statusCode : Nat
  bodyOk : Bool
deriving DecidableEq, Repr

/-- The `CallStatus` values of the terminal-failure branch. -/
def terminalFailureStatuses : List String :=
  ["busy", "no-answer", "failed", "canceled"]

/-- `twilio_status_callback`: always replies 200. Missing
`appointment_id` or unavailable Supabase short-circuit with a warning
body; `answered` sets `in_progress`, `completed` sets `completed`; a
terminal-failure status reads the current attempts of the first matching
row (0 when none) and sets `failed` when they are at least 3, else
`pending`; any other status value falls through without a write.
`raises` is the handler's exception oracle (the raise precedes the
writes); the `except` branch still acknowledges with code 200. -/
def twilio_status_callback (req : TwilioCallbackRequest) (supabaseOk : Bool)
    (raises : Bool) (now : Int) (db : List ReminderRecord) :
    HttpAck × List ReminderRecord :=
  if raises then
    ({ statusCode := 200, bodyOk := false }, db)
  else
    match req.appointment_id with
    | none => ({ statusCode := 200, bodyOk := true }, db)
    | some aid =>
      if ¬supabaseOk then
        ({ statusCode := 200, bodyOk := true }, db)
      else if req.callStatus = some "answered" then
        ({ statusCode := 200, bodyOk := true },
         updateByAppointmentId aid
           (fun r => { r with status := .in_progress, updated_at := some now }) db)
      else if req.callStatus = some "completed" then
        ({ statusCode := 200, bodyOk := true },
         updateByAppointmentId aid
           (fun r => { r with status := .completed, updated_at := some now }) db)
      else if terminalFailureStatuses.any (fun s => req.callStatus = some s) then
        let current_attempts :=
          ((db.find? fun r => r.appointment_id = aid).map
            (fun r => r.call_attempts)).getD 0
        let new_status : ReminderStatus :=
          if current_attempts ≥ 3 then .failed else .pending
        ({ statusCode := 200, bodyOk := true },
         updateByAppointmentId aid
           (fun r => { r with status := new_status, updated_at := some now }) db)
      else
        ({ statusCode := 200, bodyOk := true }, db)

/-- Postgres sorts `DESC` with nulls first, so a null `last_attempt_at`
ranks above every non-null one: `laLt a b` means `a` ranks strictly below
`b` in that order. -/
def laLt : Option Int → Option Int → Bool
  | none, _ => false
  | some _, none => true
  | some a, some b => a < b

/-- `select(...).eq("status", st).order("last_attempt_at", desc=True)
.limit(1)`: scan the rows keeping the first best-ranked row with status
`st` (ties between equal keys are broken by row order, which Postgres
leaves unspecified; this model fixes first-wins). -/
def pickFrom (st : ReminderStatus) (best : Option ReminderRecord) :
    List ReminderRecord → Option ReminderRecord
  | [] => best
  | r :: rs =>
      if r.status = st then
        match best with
        | none => pickFrom st (some r) rs
        | some b =>
            if laLt b.last_attempt_at r.last_attempt_at then
              pickFrom st (some r) rs
            else
              pickFrom st (some b) rs
      else pickFrom st best rs

/-- The most recent (by `last_attempt_at`, descending, nulls first) row
with status `st`. -/
def pickMostRecent (st : ReminderStatus) (db : List ReminderRecord) :
    Option ReminderRecord :=
  pickFrom st none db

/-- Modelled from the spec: the same one-row selection ordered by
`updated_at` instead, following the spec's words "the most recently
updated record"; kept only to compare with `pickMostRecent`, which is
what the code orders by. -/
def pickMostRecentByUpdatedAt (st : ReminderStatus)
    (best : Option ReminderRecord) :
    List ReminderRecord → Option ReminderRecord
  | [] => best
  | r :: rs =>
      if r.status = st then
        match best with
        | none => pickMostRecentByUpdatedAt st (some r) rs
        | some b =>
            if laLt b.updated_at r.updated_at then
              pickMostRecentByUpdatedAt st (some r) rs
            else
              pickMostRecentByUpdatedAt st (some b) rs
      else pickMostRecentByUpdatedAt st best rs

/-- Python truthiness of the optional correlation id
(`if not appointment_id`): absent or empty is falsy. -/
def truthyId : Option String → Bool
  | none => false
  | some s => s ≠ ""

/-- The record selection of `handle_get_reminder_context_tool`: take the
`custom_session_id` when truthy; otherwise (with Supabase available and
no lookup exception) the most recent `in_progress` row, then the most
recent `calling` row; `none` means the generic fallback greeting is
sent instead of record context. -/
def getReminderContextAppointmentId (custom_session_id : Option String)
    (supabaseOk : Bool) (lookupRaises : Bool) (db : List ReminderRecord) :
    Option String :=
  if truthyId custom_session_id then
    custom_session_id
  else if supabaseOk ∧ ¬lookupRaises then
    match pickMostRecent .in_progress db with
    | some r => some r.appointment_id
    | none =>
      match pickMostRecent .calling db with
      | some r => some r.appointment_id
      | none => none
  else
    none

/-- The chat-ended branch of `hume_webhook_handler`: when the event's
config id is the outbound one and Supabase is available, find the most
recent `in_progress` row and mark it `completed`; the inner `try` makes
a lookup/update exception a no-op. -/
def hume_chat_ended (isOutboundConfig supabaseOk : Bool) (raises : Bool)
    (now : Int) (db : List ReminderRecord) : List ReminderRecord :=
  if isOutboundConfig ∧ supabaseOk ∧ ¬raises then
    match pickMostRecent .in_progress db with
    | some r =>
        updateByAppointmentId r.appointment_id
          (fun x => { x with status := .completed, updated_at := some now }) db
    | none => db
  else db

/-- The reminder-row updates of `handle_reschedule_appointment_tool`:
with a truthy `appointment_id` parameter and a successful scheduling-API
result, a `cancelled=true` request sets the row's status to `cancelled`,
otherwise the row gets the new appointment time and status `pending`;
both writes need Supabase and are wrapped in their own `try`
(`apiStartTime` is the `start_time` of the API's appointment;
the literal `"now()"` written to `updated_at` is modelled as `now`). -/
def handle_reschedule_appointment (appointment_id : Option String)
    (cancelled : Bool) (apiSuccess : Bool) (apiStartTime : Int)
    (supabaseOk : Bool) (updateRaises : Bool) (now : Int)
    (db : List ReminderRecord) : List ReminderRecord :=
  if ¬truthyId appointment_id then
    db
  else
    match appointment_id with
    | none => db
    | some aid =>
      if ¬apiSuccess then
        db
      else if cancelled then
        if supabaseOk ∧ ¬updateRaises then
          updateByAppointmentId aid
            (fun r => { r with status := .cancelled, updated_at := some now }) db
        else db
      else
        if supabaseOk ∧ ¬updateRaises then
          updateByAppointmentId aid
            (fun r =>
              { r with
                  appointment_time := apiStartTime
                  status := .pending
                  updated_at := some now }) db
        else db

/-! Concrete fixtures used by counterexamples and witnesses. -/

/-- A dispatcher environment with test mode on. -/
def envTestMode : DispatchEnv :=
  { nowUtc := 0, tzOffset := fun _ => 0, testMode := true }

/-- A dispatcher environment with test mode off: the current instant is
110 hours past the epoch and every zone is 4 hours behind UTC, so the
local hour is 10. -/
def envLive : DispatchEnv :=
  { nowUtc := 110 * 3600, tzOffset := fun _ => -(4 * 3600), testMode := false }

/-- A pending record with two prior attempts, appointment 9 hours after
`envLive.nowUtc`. -/
def recTwoAttempts : ReminderRecord :=
  { appointment_id := "apt-2"
    patient_id := "pat-1"
    phone_number := "+15550001111"
    appointment_time := 119 * 3600
    timezone := some "America/New_York"
    status := .pending
    call_attempts := 2 }

/-- A pending record whose appointment is already 10 hours in the past
at `envLive.nowUtc`. -/
def recPast : ReminderRecord :=
  { appointment_id := "apt-past"
    patient_id := "pat-2"
    phone_number := "+15550002222"
    appointment_time := 100 * 3600
    timezone := some "America/New_York"
    status := .pending }

/-- A completed record, target of late telephony callbacks. -/
def recCompletedA : ReminderRecord :=
  { appointment_id := "apt-A"
    patient_id := "pat-3"
    phone_number := "+15550003333"
    appointment_time := 0
    timezone := some "America/New_York"
    status := .completed }

/-- An in-progress record with its call SID set, as left by a placement
followed by an `answered` callback. -/
def recInProgress : ReminderRecord :=
  { appointment_id := "apt-C"
    patient_id := "pat-5"
    phone_number := "+15550005555"
    appointment_time := 7200
    timezone := some "America/New_York"
    status := .in_progress
    call_sid := some "CA-C1"
    call_attempts := 1
    last_attempt_at := some 100
    updated_at := some 100 }

/-- One of two concurrent in-progress rows: the later placement attempt
but the earlier update timestamp. -/
def recOlderUpdate : ReminderRecord :=
  { appointment_id := "apt-D1"
    patient_id := "pat-6"
    phone_number := "+15550006666"
    appointment_time := 7200
    timezone := some "America/New_York"
    status := .in_progress
    call_sid := some "CA-D1"
    call_attempts := 1
    last_attempt_at := some 1000
    updated_at := some 500 }

/-- The other concurrent in-progress row: the earlier placement attempt
but the later update timestamp. -/
def recNewerUpdate : ReminderRecord :=
  { appointment_id := "apt-D2"
    patient_id := "pat-7"
    phone_number := "+15550007777"
    appointment_time := 7200
    timezone := some "America/New_York"
    status := .in_progress
    call_sid := some "CA-D2"
    call_attempts := 1
    last_attempt_at := some 600
    updated_at := some 900 }

/-- C1, counterexample. The claim says a placement failure with prior
`call_attempts` strictly below 3 leaves the record `pending`; the
dispatcher in fact marks it `failed` already at 2 prior attempts
(`"failed" if call_record.get('call_attempts', 0) >= 2 else "pending"`). -/
theorem c1_retry_threshold_counterexample :
    recTwoAttempts.call_attempts < 3 ∧
    (processRecord envTestMode 24 (9, 19) (fun _ => none) (fun _ => false)
        recTwoAttempts).2.status = .failed := by
  decide

/-- C1, amended: when a pending record's placement fails, the record
stays `pending` while its prior `call_attempts` is strictly below 2 and
becomes `failed` at 2 or more prior attempts (i.e. once the incremented
count reaches 3); `call_attempts` is incremented by one either way. -/
theorem c1_placement_failure_transition (env : DispatchEnv) (hb : Int)
    (ch : Int × Int) (pr : ReminderRecord → Option String)
    (ro : ReminderRecord → Bool) (r : ReminderRecord)
    (hfail : (processRecord env hb ch pr ro r).1 = .placeFailed) :
    (r.call_attempts < 2 →
      (processRecord env hb ch pr ro r).2.status = .pending) ∧
    (2 ≤ r.call_attempts →
      (processRecord env hb ch pr ro r).2.status = .failed) ∧
    (processRecord env hb ch pr ro r).2.call_attempts = r.call_attempts + 1 := by
  unfold processRecord at *
  split_ifs at hfail ⊢ with h1 h2 h3 h4
  case neg =>
    cases hpr : pr r with
    | some sid => simp [hpr] at hfail
    | none =>
        simp only [hpr]
        exact ⟨fun _ => trivial, fun hge => absurd hge h4, trivial⟩
  case pos =>
    cases hpr : pr r with
    | some sid => simp [hpr] at hfail
    | none =>
        simp only [hpr]
        exact ⟨fun hlt => absurd hlt (by omega), fun _ => trivial, trivial⟩

/-- C1, witness for the amended theorem at `recTwoAttempts`. -/
theorem c1_placement_failure_transition_witness :
    (processRecord envTestMode 24 (9, 19) (fun _ => none) (fun _ => false)
        recTwoAttempts).1 = .placeFailed ∧
    (2 ≤ recTwoAttempts.call_attempts →
      (processRecord envTestMode 24 (9, 19) (fun _ => none) (fun _ => false)
          recTwoAttempts).2.status = .failed) :=
  ⟨by decide,
   (c1_placement_failure_transition envTestMode 24 (9, 19) (fun _ => none)
      (fun _ => false) recTwoAttempts (by decide)).2.1⟩

/-- C2: for a record whose row raises no parse exception, the dispatcher
reaches the placement call exactly when the record is `pending` and —
test mode off — the time until the appointment lies in
`[0, hours_before]` hours and the local wall-clock hour lies in
`[start_hour, end_hour)`; with test mode on, both time checks are
bypassed and every pending record is eligible. -/
theorem c2_dispatch_eligibility (env : DispatchEnv) (hb : Int)
    (ch : Int × Int) (pr : ReminderRecord → Option String)
    (ro : ReminderRecord → Bool) (r : ReminderRecord)
    (hro : ro r = false) :
    (env.testMode = true →
      (attemptsCall env hb ch pr ro r ↔ r.status = .pending)) ∧
    (env.testMode = false →
      (attemptsCall env hb ch pr ro r ↔
        r.status = .pending ∧
        0 ≤ hoursUntilAppt env r ∧ hoursUntilAppt env r ≤ (hb : Rat) ∧
        ch.1 ≤ localHour env r ∧ localHour env r < ch.2)) := by
  have hplace : ∀ rec : ReminderRecord, ∀ pres : Option String,
      (match pres with
        | some sid =>
            ((RecordOutcome.placed : RecordOutcome),
              { rec with
                  status := .calling
                  call_sid := some sid
                  call_attempts := rec.call_attempts + 1
                  last_attempt_at := some env.nowUtc
                  updated_at := some env.nowUtc })
        | none =>
            ((RecordOutcome.placeFailed : RecordOutcome),
              { rec with
                  status :=
                    if rec.call_attempts ≥ 2 then ReminderStatus.failed
                    else ReminderStatus.pending
                  call_attempts := rec.call_attempts + 1
                  last_attempt_at := some env.nowUtc
                  updated_at := some env.nowUtc })).1 = RecordOutcome.placed ∨
      (match pres with
        | some sid =>
            ((RecordOutcome.placed : RecordOutcome),
              { rec with
                  status := .calling
                  call_sid := some sid
                  call_attempts := rec.call_attempts + 1
                  last_attempt_at := some env.nowUtc
                  updated_at := some env.nowUtc })
        | none =>
            ((RecordOutcome.placeFailed : RecordOutcome),
              { rec with
                  status :=
                    if rec.call_attempts ≥ 2 then ReminderStatus.failed
                    else ReminderStatus.pending
                  call_attempts := rec.call_attempts + 1
                  last_attempt_at := some env.nowUtc
                  updated_at := some env.nowUtc })).1 = RecordOutcome.placeFailed := by
    intro rec pres
    cases pres with
    | some sid => exact Or.inl rfl
    | none => exact Or.inr rfl
  constructor
  · intro ht
    unfold attemptsCall processRecord
    simp only [hro, ht, Bool.false_eq_true, if_false, not_true_eq_false,
      false_and, and_iff_left_iff_imp]
    intro _
    exact hplace r (pr r)
  · intro hf
    unfold attemptsCall processRecord
    simp only [hro, Bool.false_eq_true, if_false, hf, not_false_eq_true,
      true_and]
    by_cases hw : hoursUntilAppt env r > (hb : Rat) ∨ hoursUntilAppt env r < 0
    · simp only [if_pos hw]
      constructor
      · rintro ⟨hp, h | h⟩ <;> simp at h
      · rintro ⟨hp, h0, hhb, hlow, hhigh⟩
        rcases hw with hw | hw
        · exact absurd hhb (by push_neg; exact hw)
        · exact absurd h0 (by push_neg; exact hw)
    · simp only [if_neg hw]
      by_cases hh : localHour env r < ch.1 ∨ localHour env r ≥ ch.2
      · simp only [if_pos hh]
        constructor
        · rintro ⟨hp, h | h⟩ <;> simp at h
        · rintro ⟨hp, h0, hhb, hlow, hhigh⟩
          rcases hh with hh | hh
          · exact absurd hlow (by push_neg; exact hh)
          · exact absurd hhigh (by push_neg; exact hh)
      · simp only [if_neg hh]
        push_neg at hw hh
        constructor
        · rintro ⟨hp, _⟩
          exact ⟨hp, hw.2, hw.1, hh.1, hh.2⟩
        · rintro ⟨hp, _, _, _, _⟩
          exact ⟨hp, hplace r (pr r)⟩

/-- C2, witness: with test mode off, 9 hours to the appointment, and a
local hour of 10, the pending record `recTwoAttempts` is eligible. -/
theorem c2_dispatch_eligibility_witness :
    attemptsCall envLive 24 (9, 19) (fun _ => some "CA100") (fun _ => false)
      recTwoAttempts :=
  ((c2_dispatch_eligibility envLive 24 (9, 19) (fun _ => some "CA100")
      (fun _ => false) recTwoAttempts rfl).2 rfl).mpr
    ⟨rfl, by norm_num [hoursUntilAppt, envLive, recTwoAttempts],
      by norm_num [hoursUntilAppt, envLive, recTwoAttempts],
      by decide, by decide⟩

/-- C10: a pending record bypassed by the reminder-window check yields
outcome `notDue`, counted in none of `processed`/`skipped`/`failed` and
only in `total_pending`, its row unchanged; the `skippedHours` outcome
(the only one incrementing `skipped`) happens exactly on the
calling-hours bypass; and a record whose processing raises increments
`failed` with its row left unchanged. -/
theorem c10_dispatcher_counters (env : DispatchEnv) (hb : Int)
    (ch : Int × Int) (pr : ReminderRecord → Option String)
    (ro : ReminderRecord → Bool) (r : ReminderRecord)
    (hp : r.status = .pending) :
    (env.testMode = false → ro r = false →
      (hoursUntilAppt env r > (hb : Rat) ∨ hoursUntilAppt env r < 0) →
      processRecord env hb ch pr ro r = (.notDue, r) ∧
      process_pending_outbound_calls env true true hb ch pr ro [r] =
        ({ success := true, processed := 0, skipped := 0, failed := 0,
           total_pending := 1 }, [r])) ∧
    ((processRecord env hb ch pr ro r).1 = .skippedHours ↔
      (ro r = false ∧ env.testMode = false ∧
       ¬(hoursUntilAppt env r > (hb : Rat) ∨ hoursUntilAppt env r < 0) ∧
       (localHour env r < ch.1 ∨ localHour env r ≥ ch.2))) ∧
    (ro r = true →
      process_pending_outbound_calls env true true hb ch pr ro [r] =
        ({ success := true, processed := 0, skipped := 0, failed := 1,
           total_pending := 1 }, [r])) := by
  refine ⟨fun htm hro hw => ?_, ?_, fun hro => ?_⟩
  · have hnd : processRecord env hb ch pr ro r = (.notDue, r) := by
      unfold processRecord
      rw [if_neg (by simp [hro]), if_pos ⟨by simp [htm], hw⟩]
    refine ⟨hnd, ?_⟩
    simp [process_pending_outbound_calls, hp, hnd]
  · constructor
    · intro hsk
      unfold processRecord at hsk
      split_ifs at hsk with h1 h2 h3 h4 <;>
        first
          | exact ⟨by simpa using h1, by simpa using h3.1,
              fun hw => h2 ⟨h3.1, hw⟩, h3.2⟩
          | (cases hpr : pr r with
              | some sid => simp [hpr] at hsk
              | none => simp [hpr] at hsk)
    · rintro ⟨hro, htm, hw, hh⟩
      unfold processRecord
      rw [if_neg (by simp [hro]), if_neg (by
            intro hc
            exact hw hc.2),
          if_pos ⟨by simp [htm], hh⟩]
  · have hnd : processRecord env hb ch pr ro r = (.errored, r) := by
      unfold processRecord
      rw [if_pos hro]
    simp [process_pending_outbound_calls, hp, hnd]

/-- C10, witness: `recPast` lies outside the reminder window, so the
dispatcher on the one-row store reports only `total_pending` and leaves
the row unchanged. -/
theorem c10_dispatcher_counters_witness :
    process_pending_outbound_calls envLive true true 24 (9, 19)
        (fun _ => none) (fun _ => false) [recPast] =
      ({ success := true, processed := 0, skipped := 0, failed := 0,
         total_pending := 1 }, [recPast]) :=
  ((c10_dispatcher_counters envLive 24 (9, 19) (fun _ => none)
      (fun _ => false) recPast rfl).1 rfl rfl
    (Or.inr (by norm_num [hoursUntilAppt, envLive, recPast]))).2

/-- C8: the Twilio status callback handler acknowledges with HTTP 200 on
every path — missing correlation id, Supabase unavailable, any status
value, and the exception branch alike. -/
theorem c8_callback_always_acknowledges (req : TwilioCallbackRequest)
    (supabaseOk raises : Bool) (now : Int) (db : List ReminderRecord) :
    (twilio_status_callback req supabaseOk raises now db).1.statusCode = 200 := by
  unfold twilio_status_callback
  by_cases hr : raises = true
  · rw [if_pos hr]
  · rw [if_neg hr]
    cases haid : req.appointment_id with
    | none => rfl
    | some aid => split_ifs <;> rfl

/-- C9: a callback missing the `appointment_id` correlation parameter, or
carrying a `CallStatus` outside `answered`, `completed`, `busy`,
`no-answer`, `failed`, `canceled`, writes nothing: the store is returned
unchanged. -/
theorem c9_malformed_callback_no_write (req : TwilioCallbackRequest)
    (supabaseOk raises : Bool) (now : Int) (db : List ReminderRecord)
    (hmal : req.appointment_id = none ∨
      ∀ s ∈ ["answered", "completed", "busy", "no-answer", "failed",
             "canceled"], req.callStatus ≠ some s) :
    (twilio_status_callback req supabaseOk raises now db).2 = db := by
  unfold twilio_status_callback
  by_cases hr : raises = true
  · rw [if_pos hr]
  · rw [if_neg hr]
    rcases hmal with hnone | hstat
    · rw [hnone]
    · cases haid : req.appointment_id with
      | none => rfl
      | some aid =>
          have ha := hstat "answered" (by simp)
          have hc := hstat "completed" (by simp)
          have hterm : ¬(terminalFailureStatuses.any
              fun s => decide (req.callStatus = some s)) = true := by
            simp only [terminalFailureStatuses, List.any_cons, List.any_nil,
              Bool.or_eq_true, Bool.false_eq_true, decide_eq_true_eq, or_false]
            rintro (h | h | h | h)
            · exact hstat "busy" (by simp) h
            · exact hstat "no-answer" (by simp) h
            · exact hstat "failed" (by simp) h
            · exact hstat "canceled" (by simp) h
          split_ifs <;> rfl

/-- C3, counterexample. The claim says a telephony callback for a
terminal record leaves its status unchanged; the handler in fact applies
its transition unconditionally: an `answered` callback moves a
`completed` record to `in_progress`. -/
theorem c3_terminal_not_frozen_counterexample :
    recCompletedA.status.isTerminal = true ∧
    ((twilio_status_callback ⟨some "apt-A", some "answered", none⟩
        true false 5 [recCompletedA]).2.map fun r => r.status) =
      [.in_progress] := by
  decide

/-- C3, amended: the telephony status callback handler never checks the
record's prior status, so a terminal record is transitioned like any
other: `answered` sets `in_progress`, `completed` sets `completed`, and
a terminal-failure status sets `pending` or `failed` by the attempt
count. -/
theorem c3_callbacks_apply_regardless_of_terminal (r : ReminderRecord)
    (now : Int) (hterm : r.status.isTerminal = true) :
    (twilio_status_callback ⟨some r.appointment_id, some "answered", none⟩
        true false now [r]).2 =
      [{ r with status := .in_progress, updated_at := some now }] ∧
    (twilio_status_callback ⟨some r.appointment_id, some "completed", none⟩
        true false now [r]).2 =
      [{ r with status := .completed, updated_at := some now }] ∧
    (twilio_status_callback ⟨some r.appointment_id, some "busy", none⟩
        true false now [r]).2 =
      [{ r with
          status := if r.call_attempts ≥ 3 then .failed else .pending
          updated_at := some now }] := by
  refine ⟨?_, ?_, ?_⟩ <;>
    simp [twilio_status_callback, updateByAppointmentId,
      terminalFailureStatuses]

/-- C3, witness for the amended theorem: a late `completed` callback on
the already-completed `recCompletedA` re-applies the `completed`
transition. -/
theorem c3_callbacks_apply_regardless_witness :
    (twilio_status_callback ⟨some "apt-A", some "completed", none⟩
        true false 7 [recCompletedA]).2 =
      [{ recCompletedA with status := .completed, updated_at := some 7 }] :=
  (c3_callbacks_apply_regardless_of_terminal recCompletedA 7 rfl).2.1

/-- C4, counterexample. The claim says every transition back to `pending`
restores a state with `call_sid` absent; after a successful placement
(status `calling`, SID stored) a `busy` callback resets the record to
`pending` but leaves the stored SID in place. -/
theorem c4_stale_call_sid_counterexample :
    ((twilio_status_callback ⟨some "apt-B", some "busy", none⟩ true false 999
        [(processRecord envTestMode 24 (9, 19) (fun _ => some "CA-B1")
            (fun _ => false)
            (bookingInsertRecord "pat-4" "apt-B" "+15550004444" (119 * 3600)
              "America/New_York" none)).2]).2.map
      fun r => (r.status, r.call_sid)) = [(.pending, some "CA-B1")] := by
  decide

/-- `updateByAppointmentId` leaves the `call_sid` column of every row
unchanged whenever the row function does. -/
theorem updateByAppointmentId_map_call_sid (aid : String)
    (f : ReminderRecord → ReminderRecord) (db : List ReminderRecord)
    (hf : ∀ r, (f r).call_sid = r.call_sid) :
    ((updateByAppointmentId aid f db).map fun r => r.call_sid) =
      db.map fun r => r.call_sid := by
  unfold updateByAppointmentId
  rw [List.map_map]
  refine List.map_congr_left fun r _ => ?_
  by_cases h : r.appointment_id = aid <;> simp [h, hf]

/-- C4, amended: `call_sid` is absent on the booking-flow insert and is
written only by a successful placement; neither the telephony callback
handler nor the reschedule handler ever modifies it, so a record
returned to `pending` by a failure callback or a reschedule keeps the
stale SID of its previous attempt. -/
theorem c4_call_sid_never_cleared (patient_id appointment_id phone tz : String)
    (t : Int) (pid : Option String) (req : TwilioCallbackRequest)
    (supabaseOk raises : Bool) (now apiTime : Int) (rid : Option String)
    (cancelled apiSuccess uraises : Bool) (db : List ReminderRecord) :
    (bookingInsertRecord patient_id appointment_id phone t tz pid).call_sid
        = none ∧
    ((twilio_status_callback req supabaseOk raises now db).2.map
        fun r => r.call_sid) = (db.map fun r => r.call_sid) ∧
    ((handle_reschedule_appointment rid cancelled apiSuccess apiTime
        supabaseOk uraises now db).map fun r => r.call_sid) =
      (db.map fun r => r.call_sid) := by
  refine ⟨rfl, ?_, ?_⟩
  · unfold twilio_status_callback
    by_cases hr : raises = true
    · rw [if_pos hr]
    · rw [if_neg hr]
      cases haid : req.appointment_id with
      | none => rfl
      | some aid =>
          split_ifs <;>
            first
              | rfl
              | exact updateByAppointmentId_map_call_sid _ _ db fun r => rfl
  · unfold handle_reschedule_appointment
    by_cases ht : truthyId rid = true
    · rw [if_neg (by simp [ht])]
      cases hrid : rid with
      | none => rfl
      | some aid =>
          split_ifs <;>
            first
              | rfl
              | exact updateByAppointmentId_map_call_sid _ _ db fun r => rfl
    · rw [if_pos (by simpa using ht)]

/-- C5: from `in_progress`, either completion signal alone — the Twilio
`completed` callback or the outbound-config chat-ended event — reaches
`completed`, and re-applying either transition leaves the status
`completed` (for chat-ended the second application is a full no-op: no
`in_progress` row remains to select). -/
theorem c5_completed_idempotent (r : ReminderRecord) (n1 n2 : Int)
    (h : r.status = .in_progress) :
    (((twilio_status_callback ⟨some r.appointment_id, some "completed", none⟩
        true false n1 [r]).2.map fun x => x.status) = [.completed]) ∧
    (((twilio_status_callback ⟨some r.appointment_id, some "completed", none⟩
        true false n2
        (twilio_status_callback ⟨some r.appointment_id, some "completed", none⟩
          true false n1 [r]).2).2.map fun x => x.status) = [.completed]) ∧
    (((hume_chat_ended true true false n1 [r]).map fun x => x.status) =
      [.completed]) ∧
    (hume_chat_ended true true false n2 (hume_chat_ended true true false n1 [r])
      = hume_chat_ended true true false n1 [r]) := by
  have h1 : (twilio_status_callback
      ⟨some r.appointment_id, some "completed", none⟩ true false n1 [r]).2 =
      [{ r with status := .completed, updated_at := some n1 }] := by
    simp [twilio_status_callback, updateByAppointmentId]
  have hce : hume_chat_ended true true false n1 [r] =
      [{ r with status := .completed, updated_at := some n1 }] := by
    simp [hume_chat_ended, pickMostRecent, pickFrom, h, updateByAppointmentId]
  refine ⟨by rw [h1]; rfl, ?_, by rw [hce]; rfl, ?_⟩
  · rw [h1]
    simp [twilio_status_callback, updateByAppointmentId]
  · rw [hce]
    simp [hume_chat_ended, pickMostRecent, pickFrom]

/-- C5, witness at `recInProgress`. -/
theorem c5_completed_idempotent_witness :
    ((hume_chat_ended true true false 200
        (hume_chat_ended true true false 150 [recInProgress]))
      = hume_chat_ended true true false 150 [recInProgress]) :=
  (c5_completed_idempotent recInProgress 150 200 rfl).2.2.2

/-- C6: a reschedule tool invocation with `cancelled=true` that succeeds
against the scheduling API (Supabase available, update not raising) sets
the matching record's status to `cancelled` whatever its prior
non-terminal status was: the cancelled row is in the output store, and
every output row with that appointment id is `cancelled`. -/
theorem c6_cancel_sets_cancelled (aid : String) (haid : aid ≠ "")
    (apiTime now : Int) (db : List ReminderRecord) (r : ReminderRecord)
    (hr : r ∈ db) (hmatch : r.appointment_id = aid)
    (hterm : r.status.isTerminal = false) :
    { r with status := .cancelled, updated_at := some now } ∈
      handle_reschedule_appointment (some aid) true true apiTime true false
        now db ∧
    ∀ x ∈ handle_reschedule_appointment (some aid) true true apiTime true
        false now db, x.appointment_id = aid → x.status = .cancelled := by
  have hred : handle_reschedule_appointment (some aid) true true apiTime true
      false now db = updateByAppointmentId aid
        (fun x => { x with status := .cancelled, updated_at := some now }) db := by
    unfold handle_reschedule_appointment
    rw [if_neg (by simp [truthyId, haid])]
    simp
  rw [hred]
  constructor
  · have : (fun x => if x.appointment_id = aid then
        { x with status := ReminderStatus.cancelled, updated_at := some now }
        else x) r =
        { r with status := ReminderStatus.cancelled, updated_at := some now } := by
      simp [hmatch]
    exact this ▸ List.mem_map_of_mem _ hr
  · intro x hx hxa
    unfold updateByAppointmentId at hx
    obtain ⟨y, hy, hyx⟩ := List.mem_map.mp hx
    by_cases hya : y.appointment_id = aid
    · rw [if_pos hya] at hyx
      rw [← hyx]
    · rw [if_neg hya] at hyx
      exact absurd (hyx ▸ hxa) hya

/-- C6, witness: cancelling the appointment of the pending
`recTwoAttempts` marks its row `cancelled`. -/
theorem c6_cancel_sets_cancelled_witness :
    { recTwoAttempts with status := .cancelled, updated_at := some 42 } ∈
      handle_reschedule_appointment (some "apt-2") true true 0 true false 42
        [recTwoAttempts] :=
  (c6_cancel_sets_cancelled "apt-2" (by decide) 0 42 [recTwoAttempts]
    recTwoAttempts (by simp) rfl rfl).1

/-- `laLt` is irreflexive. -/
theorem laLt_irrefl (a : Option Int) : laLt a a = false := by
  cases a <;> simp [laLt]

/-- `laLt` is transitive. -/
theorem laLt_trans {a b c : Option Int} (h1 : laLt a b = true)
    (h2 : laLt b c = true) : laLt a c = true := by
  cases a <;> cases b <;> cases c <;> simp_all [laLt] <;> omega

/-- The complement of `laLt` is transitive. -/
theorem laLt_false_trans {a b c : Option Int} (h1 : laLt a b = false)
    (h2 : laLt b c = false) : laLt a c = false := by
  cases a <;> cases b <;> cases c <;> simp_all [laLt] <;> omega

/-- The one-row status query returns nothing exactly when it started with
no candidate and no row has the status. -/
theorem pickFrom_eq_none (st : ReminderStatus) (db : List ReminderRecord) :
    ∀ best : Option ReminderRecord,
      pickFrom st best db = none ↔
        (best = none ∧ ∀ x ∈ db, x.status ≠ st) := by
  induction db with
  | nil => intro best; simp [pickFrom]
  | cons y ys ih =>
      intro best
      by_cases hy : y.status = st
      · cases best with
        | none =>
            simp only [pickFrom]
            rw [if_pos hy]
            simp only [ih (some y)]
            constructor
            · rintro ⟨h, -⟩; cases h
            · rintro ⟨-, hall⟩; exact absurd hy (hall y (by simp))
        | some b =>
            simp only [pickFrom]
            rw [if_pos hy]
            by_cases hl : laLt b.last_attempt_at y.last_attempt_at = true
            · rw [if_pos hl]
              simp only [ih (some y)]
              constructor
              · rintro ⟨h, -⟩; cases h
              · rintro ⟨h, -⟩; cases h
            · rw [if_neg hl]
              simp only [ih (some b)]
              constructor
              · rintro ⟨h, -⟩; cases h
              · rintro ⟨h, -⟩; cases h
      · simp only [pickFrom]
        rw [if_neg hy]
        simp only [ih best]
        constructor
        · rintro ⟨h1, h2⟩
          refine ⟨h1, fun x hx => ?_⟩
          rcases List.mem_cons.mp hx with rfl | hxys
          · exact hy
          · exact h2 x hxys
        · rintro ⟨h1, h2⟩
          exact ⟨h1, fun x hx => h2 x (List.mem_cons_of_mem _ hx)⟩

/-- A row returned by the one-row status query is either the starting
candidate or a row of the store, and has the queried status. -/
theorem pickFrom_some_spec (st : ReminderStatus) (db : List ReminderRecord) :
    ∀ (best : Option ReminderRecord) (r : ReminderRecord),
      (∀ b, best = some b → b.status = st) →
      pickFrom st best db = some r →
      (best = some r ∨ r ∈ db) ∧ r.status = st := by
  induction db with
  | nil =>
      intro best r hinv h
      simp only [pickFrom] at h
      exact ⟨Or.inl h, hinv r h⟩
  | cons y ys ih =>
      intro best r hinv h
      by_cases hy : y.status = st
      · cases best with
        | none =>
            simp only [pickFrom] at h
            rw [if_pos hy] at h
            obtain ⟨h1 | h1, h2⟩ := ih (some y) r
              (fun b hb => by cases hb; exact hy) h
            · cases h1; exact ⟨Or.inr (by simp), h2⟩
            · exact ⟨Or.inr (List.mem_cons_of_mem _ h1), h2⟩
        | some b =>
            simp only [pickFrom] at h
            rw [if_pos hy] at h
            by_cases hl : laLt b.last_attempt_at y.last_attempt_at = true
            · rw [if_pos hl] at h
              obtain ⟨h1 | h1, h2⟩ := ih (some y) r
                (fun x hx => by cases hx; exact hy) h
              · cases h1; exact ⟨Or.inr (by simp), h2⟩
              · exact ⟨Or.inr (List.mem_cons_of_mem _ h1), h2⟩
            · rw [if_neg hl] at h
              obtain ⟨h1 | h1, h2⟩ := ih (some b) r hinv h
              · exact ⟨Or.inl h1, h2⟩
              · exact ⟨Or.inr (List.mem_cons_of_mem _ h1), h2⟩
      · simp only [pickFrom] at h
        rw [if_neg hy] at h
        obtain ⟨h1 | h1, h2⟩ := ih best r hinv h
        · exact ⟨Or.inl h1, h2⟩
        · exact ⟨Or.inr (List.mem_cons_of_mem _ h1), h2⟩

/-- The row returned by the one-row status query never ranks strictly
below the candidate it started from. -/
theorem pickFrom_beats_acc (st : ReminderStatus) (db : List ReminderRecord) :
    ∀ b r : ReminderRecord,
      pickFrom st (some b) db = some r →
      laLt r.last_attempt_at b.last_attempt_at = false := by
  induction db with
  | nil =>
      intro b r h
      simp only [pickFrom, Option.some.injEq] at h
      rw [← h]
      exact laLt_irrefl _
  | cons y ys ih =>
      intro b r h
      by_cases hy : y.status = st
      · simp only [pickFrom] at h
        rw [if_pos hy] at h
        by_cases hl : laLt b.last_attempt_at y.last_attempt_at = true
        · rw [if_pos hl] at h
          have hr := ih y r h
          by_contra hc
          rw [Bool.not_eq_false] at hc
          exact absurd (laLt_trans hc hl) (by simp [hr])
        · rw [if_neg hl] at h
          exact ih b r h
      · simp only [pickFrom] at h
        rw [if_neg hy] at h
        exact ih b r h

/-- The row returned by the one-row status query ranks at least as high
as every row of the store with the queried status. -/
theorem pickFrom_max (st : ReminderStatus) (db : List ReminderRecord) :
    ∀ (best : Option ReminderRecord) (r : ReminderRecord),
      pickFrom st best db = some r →
      ∀ x ∈ db, x.status = st →
        laLt r.last_attempt_at x.last_attempt_at = false := by
  induction db with
  | nil => intro best r _ x hx; cases hx
  | cons y ys ih =>
      intro best r h x hx hxst
      rcases List.mem_cons.mp hx with rfl | hxys
      · cases best with
        | none =>
            simp only [pickFrom] at h
            rw [if_pos hxst] at h
            exact pickFrom_beats_acc st ys x r h
        | some b =>
            simp only [pickFrom] at h
            rw [if_pos hxst] at h
            by_cases hl : laLt b.last_attempt_at x.last_attempt_at = true
            · rw [if_pos hl] at h
              exact pickFrom_beats_acc st ys x r h
            · rw [if_neg hl] at h
              exact laLt_false_trans (pickFrom_beats_acc st ys b r h)
                (by simpa using hl)
      · by_cases hy : y.status = st
        · cases best with
          | none =>
              simp only [pickFrom] at h
              rw [if_pos hy] at h
              exact ih (some y) r h x hxys hxst
          | some b =>
              simp only [pickFrom] at h
              rw [if_pos hy] at h
              by_cases hl : laLt b.last_attempt_at y.last_attempt_at = true
              · rw [if_pos hl] at h
                exact ih (some y) r h x hxys hxst
              · rw [if_neg hl] at h
                exact ih (some b) r h x hxys hxst
        · simp only [pickFrom] at h
          rw [if_neg hy] at h
          exact ih best r h x hxys hxst

/-- C7, counterexample. The claim says the fallback lookup selects the
most recently *updated* `in_progress` record; the query in fact orders by
`last_attempt_at`: with two in-progress rows it selects the one with the
later placement attempt even though the other was updated more
recently. -/
theorem c7_selection_key_counterexample :
    getReminderContextAppointmentId none true false
        [recOlderUpdate, recNewerUpdate] = some "apt-D1" ∧
    ((pickMostRecentByUpdatedAt .in_progress none
        [recOlderUpdate, recNewerUpdate]).map fun r => r.appointment_id) =
      some "apt-D2" ∧
    "apt-D1" ≠ "apt-D2" := by
  decide

/-- C7, amended: a truthy explicit correlation identifier selects the
record directly; otherwise (store available, lookup not raising) the
record selected is an `in_progress` row whose `last_attempt_at` ranks
highest among `in_progress` rows, then — when no `in_progress` row
exists — a `calling` row whose `last_attempt_at` ranks highest among
`calling` rows; when neither exists the selection is empty and the
generic fallback greeting is used. -/
theorem c7_context_record_selection (custom : Option String)
    (supabaseOk : Bool) (db : List ReminderRecord) :
    (truthyId custom = true →
      getReminderContextAppointmentId custom supabaseOk false db = custom) ∧
    (truthyId custom = false → supabaseOk = true →
      ((∃ r ∈ db, r.status = .in_progress ∧
          getReminderContextAppointmentId custom supabaseOk false db =
            some r.appointment_id ∧
          ∀ x ∈ db, x.status = .in_progress →
            laLt r.last_attempt_at x.last_attempt_at = false) ∨
       ((∀ x ∈ db, x.status ≠ .in_progress) ∧
        ∃ r ∈ db, r.status = .calling ∧
          getReminderContextAppointmentId custom supabaseOk false db =
            some r.appointment_id ∧
          ∀ x ∈ db, x.status = .calling →
            laLt r.last_attempt_at x.last_attempt_at = false) ∨
       ((∀ x ∈ db, x.status ≠ .in_progress ∧ x.status ≠ .calling) ∧
        getReminderContextAppointmentId custom supabaseOk false db =
          none))) := by
  constructor
  · intro ht
    unfold getReminderContextAppointmentId
    rw [if_pos ht]
  · intro hf hs
    have hred : getReminderContextAppointmentId custom supabaseOk false db =
        (match pickMostRecent .in_progress db with
          | some r => some r.appointment_id
          | none =>
            match pickMostRecent .calling db with
            | some r => some r.appointment_id
            | none => none) := by
      unfold getReminderContextAppointmentId
      rw [if_neg (by simp [hf]), if_pos ⟨hs, by simp⟩]
    cases hpick : pickMostRecent ReminderStatus.in_progress db with
    | some r =>
        left
        obtain ⟨hmem, hst⟩ := pickFrom_some_spec ReminderStatus.in_progress db
          none r (fun b hb => by cases hb) hpick
        rcases hmem with hmem | hmem
        · cases hmem
        · exact ⟨r, hmem, hst, by rw [hred, hpick],
            pickFrom_max ReminderStatus.in_progress db none r hpick⟩
    | none =>
        have hnone : ∀ x ∈ db, x.status ≠ ReminderStatus.in_progress :=
          ((pickFrom_eq_none ReminderStatus.in_progress db none).mp hpick).2
        cases hpick2 : pickMostRecent ReminderStatus.calling db with
        | some r =>
            right; left
            obtain ⟨hmem, hst⟩ := pickFrom_some_spec ReminderStatus.calling db
              none r (fun b hb => by cases hb) hpick2
            rcases hmem with hmem | hmem
            · cases hmem
            · exact ⟨hnone, r, hmem, hst, by rw [hred, hpick, hpick2],
                pickFrom_max ReminderStatus.calling db none r hpick2⟩
        | none =>
            have hnone2 : ∀ x ∈ db, x.status ≠ ReminderStatus.calling :=
              ((pickFrom_eq_none ReminderStatus.calling db none).mp hpick2).2
            right; right
            exact ⟨fun x hx => ⟨hnone x hx, hnone2 x hx⟩,
              by rw [hred, hpick, hpick2]⟩

/-- C7, witness: an explicit correlation identifier wins, and on the
two-row store the fallback picks the row with the higher
`last_attempt_at`. -/
theorem c7_context_record_selection_witness :
    getReminderContextAppointmentId (some "apt-X") true false
        [recOlderUpdate, recNewerUpdate] = some "apt-X" :=
  (c7_context_record_selection (some "apt-X") true
      [recOlderUpdate, recNewerUpdate]).1 (by decide)

/-- C9, witness: a callback with a known appointment id but the
out-of-set status `queued` leaves the store untouched. -/
theorem c9_malformed_callback_no_write_witness :
    (twilio_status_callback ⟨some "apt-past", some "queued", none⟩ true false
        0 [recPast]).2 = [recPast] :=
  c9_malformed_callback_no_write ⟨some "apt-past", some "queued", none⟩ true
    false 0 [recPast] (Or.inr (by decide))

end HumeWebhook
